import Mathlib

/-!
Verification of the photo-calendar editor core.

Shallow embedding of the repository's source:
* `CalendarGenerator` (CalendarGenerator.tsx): the month-grid rasterizer's
  day-cell placement logic (`renderCalendar`).
* `PhotoEditor` (PhotoEditor.tsx): the overlay bounds clamp
  (`keepCalendarWithinBounds`), the transformer's `boundBoxFunc`, the
  transform/drag commit handlers, month navigation (`changeMonth`), the
  export compositor's off-screen canvas sizing and capture fallback chain
  (`getCleanRender` / `captureCanvas`), and the photo-filter pipeline.

JavaScript numbers are modelled as rationals (`ℚ`); the geometric code uses
only addition, subtraction, `Math.min`/`Math.max`, comparison and division,
so every computation below mirrors the source expression for expression.
-/

namespace PhotoCalendar

/-! Section: Calendar rasterizer (CalendarGenerator.tsx, `renderCalendar`)

The source computes
  `const firstDay = new Date(year, month, 1).getDay();`
  `const daysInMonth = new Date(year, month + 1, 0).getDate();`
and then, for `row < 6`, `col < 7`, draws the day number
  `dayNum = row * 7 + col - firstDay + 1`
exactly when `dayNum > 0 && dayNum <= daysInMonth`.

`Date` uses the proleptic Gregorian civil calendar; the two-argument
constructor maps a year argument in `[0, 99]` to `1900 + year`
(modelled by `jsYear`). -/

/-- Gregorian leap-year rule, as used by the JavaScript `Date` engine. -/
def isLeap (y : ℤ) : Bool :=
  (y % 4 == 0 && y % 100 != 0) || y % 400 == 0

/-- The `Date(year, month, day)` constructor interprets years 0–99 as 1900–1999. -/
def jsYear (y : ℤ) : ℤ :=
  if 0 ≤ y ∧ y ≤ 99 then y + 1900 else y

/-- Length of a month (0 = January … 11 = December) in a (non-)leap year. -/
def monthLength (month : ℕ) (leap : Bool) : ℕ :=
  match month with
  | 0 => 31
  | 1 => if leap then 29 else 28
  | 2 => 31
  | 3 => 30
  | 4 => 31
  | 5 => 30
  | 6 => 31
  | 7 => 31
  | 8 => 30
  | 9 => 31
  | 10 => 30
  | _ => 31

/-- Embedding of `new Date(year, month + 1, 0).getDate()`: the number of days
in month `month` (0-based) of the year denoted by `year`. -/
def daysInMonth (month : ℕ) (year : ℤ) : ℕ :=
  monthLength month (isLeap (jsYear year))

/-- Days from January 1 to the first of `month` within one year. -/
def daysBeforeMonth (month : ℕ) (leap : Bool) : ℕ :=
  (List.range month).foldl (fun acc i => acc + monthLength i leap) 0

/-- Days from 0000-01-01 (proleptic Gregorian) to `y`-01-01; January 1 of
year 0 is a Saturday, consistent with 2000-01-01 being a Saturday. -/
def daysBeforeYear (y : ℤ) : ℤ :=
  365 * y + (y + 3).fdiv 4 - (y + 99).fdiv 100 + (y + 399).fdiv 400

/-- Embedding of `new Date(year, month, 1).getDay()`: weekday (0 = Sunday) of
the first of the month. -/
def firstWeekday (month : ℕ) (year : ℤ) : ℕ :=
  ((daysBeforeYear (jsYear year) +
    (daysBeforeMonth month (isLeap (jsYear year)) : ℤ) + 6) % 7).toNat

/-- The source's `const dayNum = row * 7 + col - firstDay + 1;`. -/
def cellDayNum (firstDay row col : ℕ) : ℤ :=
  (row : ℤ) * 7 + (col : ℤ) - (firstDay : ℤ) + 1

/-- The source's draw condition `if (dayNum > 0 && dayNum <= daysInMonth)`
for the cell at (`row`, `col`). -/
def cellHasDay (firstDay days row col : ℕ) : Bool :=
  decide (0 < cellDayNum firstDay row col) &&
    decide (cellDayNum firstDay row col ≤ (days : ℤ))

/-- Number of non-blank day cells drawn by the 6 × 7 grid loop. -/
def drawnCellCount (firstDay days : ℕ) : ℕ :=
  ((List.range 6).map fun row =>
    ((List.range 7).filter fun col => cellHasDay firstDay days row col).length).sum

lemma firstWeekday_lt_seven (month : ℕ) (year : ℤ) : firstWeekday month year < 7 := by
  unfold firstWeekday
  omega

lemma monthLength_le_31 (month : ℕ) (leap : Bool) : monthLength month leap ≤ 31 := by
  rcases month with _ | _ | _ | _ | _ | _ | _ | _ | _ | _ | _ | month <;>
    cases leap <;> first | decide | exact le_refl 31

lemma one_le_monthLength (month : ℕ) (leap : Bool) : 1 ≤ monthLength month leap := by
  rcases month with _ | _ | _ | _ | _ | _ | _ | _ | _ | _ | _ | month <;>
    cases leap <;> first | decide | exact Nat.one_le_iff_ne_zero.mpr (by exact Nat.succ_ne_zero 30)

lemma daysInMonth_le_31 (month : ℕ) (year : ℤ) : daysInMonth month year ≤ 31 :=
  monthLength_le_31 month (isLeap (jsYear year))

lemma one_le_daysInMonth (month : ℕ) (year : ℤ) : 1 ≤ daysInMonth month year :=
  one_le_monthLength month (isLeap (jsYear year))

lemma drawnCellCount_eq :
    ∀ firstDay, firstDay < 7 → ∀ days, days ≤ 31 →
      drawnCellCount firstDay days = days := by
  decide

/-- Claim C2: For every month in [0, 11] and every year, the rasterizer draws a
day number in grid cell (`row`, `col`) exactly when
`row * 7 + col - firstWeekday(month, year) + 1` lies in
`[1, daysInMonth(month, year)]`; exactly `daysInMonth(month, year)` of the
42 grid cells are non-blank; the cell day number is 1 exactly at grid offset
`row * 7 + col = firstWeekday(month, year)`, and that cell (row 0, column
`firstWeekday`) is indeed drawn. -/
theorem renderCalendar_grid (month : ℕ) (year : ℤ) (hm : month ≤ 11) :
    (∀ row col : ℕ,
      cellHasDay (firstWeekday month year) (daysInMonth month year) row col = true ↔
        (1 ≤ cellDayNum (firstWeekday month year) row col ∧
          cellDayNum (firstWeekday month year) row col ≤ (daysInMonth month year : ℤ))) ∧
    drawnCellCount (firstWeekday month year) (daysInMonth month year) =
      daysInMonth month year ∧
    (∀ row col : ℕ,
      cellDayNum (firstWeekday month year) row col = 1 ↔
        row * 7 + col = firstWeekday month year) ∧
    cellHasDay (firstWeekday month year) (daysInMonth month year)
      0 (firstWeekday month year) = true := by
  refine ⟨?_, ?_, ?_, ?_⟩
  · intro row col
    simp only [cellHasDay, Bool.and_eq_true, decide_eq_true_eq, cellDayNum]
    omega
  · exact drawnCellCount_eq _ (firstWeekday_lt_seven month year) _
      (daysInMonth_le_31 month year)
  · intro row col
    simp only [cellDayNum]
    omega
  · have hd := one_le_daysInMonth month year
    simp only [cellHasDay, Bool.and_eq_true, decide_eq_true_eq, cellDayNum]
    omega

/-- Witness for `renderCalendar_grid`: October 2026 (month 9). -/
theorem renderCalendar_grid_witness :
    9 ≤ 11 ∧
      drawnCellCount (firstWeekday 9 2026) (daysInMonth 9 2026) = daysInMonth 9 2026 :=
  ⟨by decide, (renderCalendar_grid 9 2026 (by decide)).2.1⟩

/-! Section: Overlay geometry (PhotoEditor.tsx)

`calendarAttrs` is the committed overlay transform; `photoSize` supplies the
stage dimensions.  Drag commits go through `onDragEnd` →
`keepCalendarWithinBounds`; resize gestures route every candidate box through
the transformer's `boundBoxFunc` and commit through `handleTransformEnd`. -/

/-- The `calendarAttrs` state record (`{ x, y, width, height, id }`). -/
structure CalendarAttrs where
  x : ℚ
  y : ℚ
  width : ℚ
  height : ℚ
  id : String

/-- A transformer bounding box (`oldBox` / `newBox` of `boundBoxFunc`). -/
structure TransformBox where
  x : ℚ
  y : ℚ
  width : ℚ
  height : ℚ

/-- Embedding of `keepCalendarWithinBounds` (PhotoEditor.tsx lines 460–487):
clamps only `x` and `y`, spreading the remaining fields unchanged. -/
def keepCalendarWithinBounds (stageWidth stageHeight : ℚ)
    (newAttrs : CalendarAttrs) : CalendarAttrs :=
  { newAttrs with
    x :=
      if newAttrs.x < 0 then 0
      else if newAttrs.x + newAttrs.width > stageWidth then
        max 0 (stageWidth - newAttrs.width)
      else newAttrs.x,
    y :=
      if newAttrs.y < 0 then 0
      else if newAttrs.y + newAttrs.height > stageHeight then
        max 0 (stageHeight - newAttrs.height)
      else newAttrs.y }

/-- Embedding of the transformer's `boundBoxFunc` (PhotoEditor.tsx lines
875–917).  The `let`-chain reproduces the JavaScript mutation order on
`constrainedBox`: the width is first shrunk when `x < 0`, then overwritten by
`stageWidth - newBox.x` when the right edge overflows, then floored at 50
(and symmetrically for the vertical axis). -/
def boundBoxFunc (stageWidth stageHeight : ℚ)
    (oldBox newBox : TransformBox) : TransformBox :=
  if newBox.width < 50 ∨ newBox.height < 50 then oldBox
  else if newBox.x < 0 ∨ newBox.y < 0 ∨ newBox.x + newBox.width > stageWidth ∨
      newBox.y + newBox.height > stageHeight then
    let w1 := if newBox.x < 0 then newBox.width + newBox.x else newBox.width
    let x1 := if newBox.x < 0 then 0 else newBox.x
    let w2 := if newBox.x + newBox.width > stageWidth then stageWidth - newBox.x else w1
    let h1 := if newBox.y < 0 then newBox.height + newBox.y else newBox.height
    let y1 := if newBox.y < 0 then 0 else newBox.y
    let h2 := if newBox.y + newBox.height > stageHeight then stageHeight - newBox.y else h1
    let w3 := if w2 < 50 then 50 else w2
    let h3 := if h2 < 50 then 50 else h2
    { x := x1, y := y1, width := w3, height := h3 }
  else newBox

/-- Embedding of `handleTransformEnd` (PhotoEditor.tsx lines 686–721): the
node's accumulated box is committed with `width`/`height` clamped by
`Math.min(·, photoSize.width/height)` and then routed through
`keepCalendarWithinBounds`. -/
def handleTransformEnd (stageWidth stageHeight : ℚ)
    (attrs : CalendarAttrs) (node : TransformBox) : CalendarAttrs :=
  keepCalendarWithinBounds stageWidth stageHeight
    { attrs with
      x := node.x
      y := node.y
      width := min node.width stageWidth
      height := min node.height stageHeight }

/-- Embedding of the `onDragEnd` handler (PhotoEditor.tsx lines 821–843):
the dropped position is committed through `keepCalendarWithinBounds`. -/
def handleDragEnd (stageWidth stageHeight : ℚ)
    (attrs : CalendarAttrs) (targetX targetY : ℚ) : CalendarAttrs :=
  keepCalendarWithinBounds stageWidth stageHeight
    { attrs with x := targetX, y := targetY }

/-- A committed user gesture: a drag drop at an arbitrary position, or a
resize whose handle drag produced an arbitrary sequence of candidate boxes
(each filtered live by `boundBoxFunc`, then committed). -/
inductive Gesture where
  | drag (targetX targetY : ℚ)
  | resize (candidates : List TransformBox)

/-- The transformer's box at the start of a resize gesture: the node's
committed geometry. -/
def attrsBox (attrs : CalendarAttrs) : TransformBox :=
  ⟨attrs.x, attrs.y, attrs.width, attrs.height⟩

/-- One committed gesture applied to the overlay state. -/
def applyGesture (stageWidth stageHeight : ℚ) (attrs : CalendarAttrs) :
    Gesture → CalendarAttrs
  | Gesture.drag tx ty => handleDragEnd stageWidth stageHeight attrs tx ty
  | Gesture.resize candidates =>
      handleTransformEnd stageWidth stageHeight attrs
        (candidates.foldl (boundBoxFunc stageWidth stageHeight) (attrsBox attrs))

/-- A sequence of committed gestures. -/
def applyGestures (stageWidth stageHeight : ℚ) (attrs : CalendarAttrs)
    (gestures : List Gesture) : CalendarAttrs :=
  gestures.foldl (applyGesture stageWidth stageHeight) attrs

/-- The spec's overlay transform invariants (§3 OverlayTransform). -/
def OverlayInvariant (stageWidth stageHeight : ℚ) (a : CalendarAttrs) : Prop :=
  0 ≤ a.x ∧ 0 ≤ a.y ∧ a.x + a.width ≤ stageWidth ∧ a.y + a.height ≤ stageHeight ∧
    50 ≤ a.width ∧ 50 ≤ a.height

lemma clampCoord_spec (limit w v : ℚ) (hw : w ≤ limit) :
    0 ≤ (if v < 0 then 0 else if v + w > limit then max 0 (limit - w) else v) ∧
      (if v < 0 then 0 else if v + w > limit then max 0 (limit - w) else v) + w ≤ limit := by
  split_ifs with h1 h2
  · constructor
    · exact le_refl 0
    · linarith
  · have hmax : max 0 (limit - w) = limit - w := max_eq_right (by linarith)
    rw [hmax]
    constructor <;> linarith
  · constructor <;> linarith

lemma keepCalendarWithinBounds_inv (stageWidth stageHeight : ℚ) (a : CalendarAttrs)
    (hw50 : 50 ≤ a.width) (hh50 : 50 ≤ a.height)
    (hw : a.width ≤ stageWidth) (hh : a.height ≤ stageHeight) :
    OverlayInvariant stageWidth stageHeight
      (keepCalendarWithinBounds stageWidth stageHeight a) := by
  have hx := clampCoord_spec stageWidth a.width a.x hw
  have hy := clampCoord_spec stageHeight a.height a.y hh
  exact ⟨hx.1, hy.1, hx.2, hy.2, hw50, hh50⟩

lemma boundBoxFunc_min (stageWidth stageHeight : ℚ) (oldBox newBox : TransformBox)
    (hw : 50 ≤ oldBox.width) (hh : 50 ≤ oldBox.height) :
    50 ≤ (boundBoxFunc stageWidth stageHeight oldBox newBox).width ∧
      50 ≤ (boundBoxFunc stageWidth stageHeight oldBox newBox).height := by
  unfold boundBoxFunc
  by_cases hrej : newBox.width < 50 ∨ newBox.height < 50
  · rw [if_pos hrej]
    exact ⟨hw, hh⟩
  · rw [if_neg hrej]
    by_cases hoob : newBox.x < 0 ∨ newBox.y < 0 ∨ newBox.x + newBox.width > stageWidth ∨
        newBox.y + newBox.height > stageHeight
    · rw [if_pos hoob]
      dsimp only
      constructor
      · split_ifs <;> linarith
      · split_ifs <;> linarith
    · rw [if_neg hoob]
      push_neg at hrej
      exact ⟨hrej.1, hrej.2⟩

lemma foldl_boundBoxFunc_min (stageWidth stageHeight : ℚ) (candidates : List TransformBox)
    (b : TransformBox) (hw : 50 ≤ b.width) (hh : 50 ≤ b.height) :
    50 ≤ (candidates.foldl (boundBoxFunc stageWidth stageHeight) b).width ∧
      50 ≤ (candidates.foldl (boundBoxFunc stageWidth stageHeight) b).height := by
  induction candidates generalizing b with
  | nil => exact ⟨hw, hh⟩
  | cons c cs ih =>
      have h := boundBoxFunc_min stageWidth stageHeight b c hw hh
      exact ih _ h.1 h.2

lemma handleTransformEnd_inv (stageWidth stageHeight : ℚ)
    (attrs : CalendarAttrs) (node : TransformBox)
    (hsW : 50 ≤ stageWidth) (hsH : 50 ≤ stageHeight)
    (hw : 50 ≤ node.width) (hh : 50 ≤ node.height) :
    OverlayInvariant stageWidth stageHeight
      (handleTransformEnd stageWidth stageHeight attrs node) := by
  refine keepCalendarWithinBounds_inv stageWidth stageHeight _ ?_ ?_ ?_ ?_
  · exact le_min hw hsW
  · exact le_min hh hsH
  · exact min_le_right _ _
  · exact min_le_right _ _

lemma applyGesture_inv (stageWidth stageHeight : ℚ) (attrs : CalendarAttrs)
    (g : Gesture) (hInv : OverlayInvariant stageWidth stageHeight attrs) :
    OverlayInvariant stageWidth stageHeight
      (applyGesture stageWidth stageHeight attrs g) := by
  obtain ⟨hx, hy, hxw, hyh, hw50, hh50⟩ := hInv
  cases g with
  | drag tx ty =>
      exact keepCalendarWithinBounds_inv stageWidth stageHeight _
        hw50 hh50 (by linarith) (by linarith)
  | resize candidates =>
      have hbox := foldl_boundBoxFunc_min stageWidth stageHeight candidates
        (attrsBox attrs) hw50 hh50
      exact handleTransformEnd_inv stageWidth stageHeight attrs _
        (by linarith) (by linarith) hbox.1 hbox.2

/-- Claim C1: For every overlay state satisfying the invariants and every
sequence of committed drag and resize gesture inputs — including adversarial
out-of-bounds positions and candidate boxes — the overlay transform committed
after each gesture satisfies `0 ≤ x`, `0 ≤ y`, `x + width ≤ stageWidth`,
`y + height ≤ stageHeight`, `width ≥ 50` and `height ≥ 50` simultaneously. -/
theorem overlayInvariant_preserved (stageWidth stageHeight : ℚ)
    (attrs : CalendarAttrs) (hInv : OverlayInvariant stageWidth stageHeight attrs)
    (gestures : List Gesture) :
    OverlayInvariant stageWidth stageHeight
      (applyGestures stageWidth stageHeight attrs gestures) := by
  unfold applyGestures
  induction gestures generalizing attrs with
  | nil => exact hInv
  | cons g gs ih =>
      exact ih _ (applyGesture_inv stageWidth stageHeight attrs g hInv)

/-- Witness for `overlayInvariant_preserved`: an 800 × 600 stage, the default
overlay, a far out-of-bounds drag and an adversarial resize. -/
theorem overlayInvariant_preserved_witness :
    OverlayInvariant 800 600
      (applyGestures 800 600 ⟨50, 50, 400, 350, "calendar"⟩
        [Gesture.drag 10000 (-300),
         Gesture.resize [⟨-20, -20, 2000, 2000⟩, ⟨790, 5, 60, 30⟩]]) :=
  overlayInvariant_preserved 800 600 ⟨50, 50, 400, 350, "calendar"⟩
    ⟨by norm_num, by norm_num, by norm_num, by norm_num, by norm_num, by norm_num⟩
    [Gesture.drag 10000 (-300),
     Gesture.resize [⟨-20, -20, 2000, 2000⟩, ⟨790, 5, 60, 30⟩]]

/-- Claim C4: A candidate resize box whose width or height is below 50 is
rejected: `boundBoxFunc` returns the previous box unchanged, and repeating
the same rejected input changes nothing. -/
theorem boundBoxFunc_rejects_below_min (stageWidth stageHeight : ℚ)
    (oldBox newBox : TransformBox)
    (h : newBox.width < 50 ∨ newBox.height < 50) :
    boundBoxFunc stageWidth stageHeight oldBox newBox = oldBox ∧
      boundBoxFunc stageWidth stageHeight
        (boundBoxFunc stageWidth stageHeight oldBox newBox) newBox =
        boundBoxFunc stageWidth stageHeight oldBox newBox := by
  have h1 : boundBoxFunc stageWidth stageHeight oldBox newBox = oldBox := by
    unfold boundBoxFunc
    rw [if_pos h]
  refine ⟨h1, ?_⟩
  rw [h1]
  unfold boundBoxFunc
  rw [if_pos h]

/-- Witness for `boundBoxFunc_rejects_below_min`: a 49-wide candidate. -/
theorem boundBoxFunc_rejects_below_min_witness :
    boundBoxFunc 800 600 ⟨1, 2, 60, 70⟩ ⟨0, 0, 49, 80⟩ = ⟨1, 2, 60, 70⟩ :=
  (boundBoxFunc_rejects_below_min 800 600 ⟨1, 2, 60, 70⟩ ⟨0, 0, 49, 80⟩
    (Or.inl (by norm_num))).1

/-- Claim C9: The drag bounds clamp `keepCalendarWithinBounds` may change only
the `x` and `y` fields: `width`, `height` and the remaining `id` field are
returned exactly unchanged, so dragging can never resize the overlay. -/
theorem keepCalendarWithinBounds_only_moves (stageWidth stageHeight : ℚ)
    (newAttrs : CalendarAttrs) :
    (keepCalendarWithinBounds stageWidth stageHeight newAttrs).width = newAttrs.width ∧
      (keepCalendarWithinBounds stageWidth stageHeight newAttrs).height = newAttrs.height ∧
      (keepCalendarWithinBounds stageWidth stageHeight newAttrs).id = newAttrs.id :=
  ⟨rfl, rfl, rfl⟩

/-- Claim C10: If the previous box has width ≥ 50 and height ≥ 50, so does the
box returned by `boundBoxFunc`, on each of its three return paths (rejection,
clamped box, pass-through): the 50-unit minimum-size floor is preserved by
every resize step. -/
theorem boundBoxFunc_preserves_min_size (stageWidth stageHeight : ℚ)
    (oldBox newBox : TransformBox)
    (hw : 50 ≤ oldBox.width) (hh : 50 ≤ oldBox.height) :
    50 ≤ (boundBoxFunc stageWidth stageHeight oldBox newBox).width ∧
      50 ≤ (boundBoxFunc stageWidth stageHeight oldBox newBox).height :=
  boundBoxFunc_min stageWidth stageHeight oldBox newBox hw hh

/-- Witness for `boundBoxFunc_preserves_min_size`: an out-of-bounds candidate
that triggers the clamp-and-floor path. -/
theorem boundBoxFunc_preserves_min_size_witness :
    50 ≤ (boundBoxFunc 800 600 ⟨0, 0, 100, 100⟩ ⟨780, -5, 60, 70⟩).width ∧
      50 ≤ (boundBoxFunc 800 600 ⟨0, 0, 100, 100⟩ ⟨780, -5, 60, 70⟩).height :=
  boundBoxFunc_preserves_min_size 800 600 ⟨0, 0, 100, 100⟩ ⟨780, -5, 60, 70⟩
    (by norm_num) (by norm_num)

/-! Section: Month navigation (PhotoEditor.tsx, `changeMonth`, lines 428–442) -/

/-- Embedding of `changeMonth`: `newMonth = calendarMonth + delta`, wrapping
to January of the next year above 11 and to December of the previous year
below 0.  Returns the new `(month, year)` pair. -/
def changeMonth (calendarMonth calendarYear delta : ℤ) : ℤ × ℤ :=
  let newMonth := calendarMonth + delta
  if newMonth > 11 then (0, calendarYear + 1)
  else if newMonth < 0 then (11, calendarYear - 1)
  else (newMonth, calendarYear)

/-- Claim C5: Month navigation is cyclic: from month 11, delta +1 yields month 0
and year + 1; from month 0, delta −1 yields month 11 and year − 1; for every
other month in [0, 11] the delta is added to the month and the year is
unchanged. -/
theorem changeMonth_spec (month year : ℤ) (hm0 : 0 ≤ month) (hm1 : month ≤ 11) :
    changeMonth 11 year 1 = (0, year + 1) ∧
      changeMonth 0 year (-1) = (11, year - 1) ∧
      (month < 11 → changeMonth month year 1 = (month + 1, year)) ∧
      (0 < month → changeMonth month year (-1) = (month - 1, year)) := by
  refine ⟨?_, ?_, ?_, ?_⟩
  · unfold changeMonth
    norm_num
  · unfold changeMonth
    norm_num
  · intro h
    unfold changeMonth
    rw [if_neg (by omega), if_neg (by omega)]
  · intro h
    unfold changeMonth
    rw [if_neg (by omega), if_neg (by omega)]
    rw [Prod.mk.injEq]
    exact ⟨by ring, rfl⟩

/-- Witness for `changeMonth_spec`: month 5. -/
theorem changeMonth_spec_witness :
    changeMonth 5 2026 1 = (6, 2026) :=
  (changeMonth_spec 5 2026 (by decide) (by decide)).2.2.1 (by decide)

/-! Section: Export compositor: off-screen canvas sizing
(PhotoEditor.tsx, `getCleanRender`, lines 256–277) -/

/-- The off-screen composite's computed dimensions. -/
structure CompositeDims where
  targetWidth : ℚ
  targetHeight : ℚ
  finalWidth : ℚ
  finalHeight : ℚ

/-- Embedding of the off-screen canvas sizing in `getCleanRender`:
`targetWidth/Height = stage * exportPixelRatio`; when either target dimension
exceeds `maxDimension = 4096`, both are multiplied by
`Math.min(4096 / targetWidth, 4096 / targetHeight)`. -/
def offscreenDims (stageWidth stageHeight exportPixelRatio : ℚ) : CompositeDims :=
  let targetWidth := stageWidth * exportPixelRatio
  let targetHeight := stageHeight * exportPixelRatio
  if targetWidth > 4096 ∨ targetHeight > 4096 then
    let scaleFactor := min (4096 / targetWidth) (4096 / targetHeight)
    ⟨targetWidth, targetHeight, targetWidth * scaleFactor, targetHeight * scaleFactor⟩
  else
    ⟨targetWidth, targetHeight, targetWidth, targetHeight⟩

/-- Claim C3: The target bitmap is sized `stageWidth * pixelRatio` by
`stageHeight * pixelRatio`; whenever either target dimension exceeds 4096,
both are multiplied by the same factor
`min(4096 / targetWidth, 4096 / targetHeight)`, so the final canvas has
neither dimension above 4096, and the final width-to-height ratio equals the
stage's width-to-height ratio. -/
theorem offscreenDims_spec (stageWidth stageHeight exportPixelRatio : ℚ)
    (hW : 0 < stageWidth) (hH : 0 < stageHeight) (hp : 0 < exportPixelRatio) :
    (offscreenDims stageWidth stageHeight exportPixelRatio).targetWidth =
        stageWidth * exportPixelRatio ∧
      (offscreenDims stageWidth stageHeight exportPixelRatio).targetHeight =
        stageHeight * exportPixelRatio ∧
      (stageWidth * exportPixelRatio > 4096 ∨ stageHeight * exportPixelRatio > 4096 →
        (offscreenDims stageWidth stageHeight exportPixelRatio).finalWidth =
            stageWidth * exportPixelRatio *
              min (4096 / (stageWidth * exportPixelRatio))
                (4096 / (stageHeight * exportPixelRatio)) ∧
          (offscreenDims stageWidth stageHeight exportPixelRatio).finalHeight =
            stageHeight * exportPixelRatio *
              min (4096 / (stageWidth * exportPixelRatio))
                (4096 / (stageHeight * exportPixelRatio))) ∧
      (offscreenDims stageWidth stageHeight exportPixelRatio).finalWidth ≤ 4096 ∧
      (offscreenDims stageWidth stageHeight exportPixelRatio).finalHeight ≤ 4096 ∧
      (offscreenDims stageWidth stageHeight exportPixelRatio).finalWidth /
          (offscreenDims stageWidth stageHeight exportPixelRatio).finalHeight =
        stageWidth / stageHeight := by
  have htw : 0 < stageWidth * exportPixelRatio := mul_pos hW hp
  have hth : 0 < stageHeight * exportPixelRatio := mul_pos hH hp
  by_cases hbig : stageWidth * exportPixelRatio > 4096 ∨
      stageHeight * exportPixelRatio > 4096
  · have hs : 0 < min (4096 / (stageWidth * exportPixelRatio))
        (4096 / (stageHeight * exportPixelRatio)) :=
      lt_min (div_pos (by norm_num) htw) (div_pos (by norm_num) hth)
    have hred : offscreenDims stageWidth stageHeight exportPixelRatio =
        ⟨stageWidth * exportPixelRatio, stageHeight * exportPixelRatio,
          stageWidth * exportPixelRatio *
            min (4096 / (stageWidth * exportPixelRatio))
              (4096 / (stageHeight * exportPixelRatio)),
          stageHeight * exportPixelRatio *
            min (4096 / (stageWidth * exportPixelRatio))
              (4096 / (stageHeight * exportPixelRatio))⟩ := by
      unfold offscreenDims
      rw [if_pos hbig]
    rw [hred]
    refine ⟨rfl, rfl, fun _ => ⟨rfl, rfl⟩, ?_, ?_, ?_⟩
    · have h1 : min (4096 / (stageWidth * exportPixelRatio))
          (4096 / (stageHeight * exportPixelRatio)) ≤
            4096 / (stageWidth * exportPixelRatio) := min_le_left _ _
      calc stageWidth * exportPixelRatio *
            min (4096 / (stageWidth * exportPixelRatio))
              (4096 / (stageHeight * exportPixelRatio)) ≤
          stageWidth * exportPixelRatio * (4096 / (stageWidth * exportPixelRatio)) :=
            mul_le_mul_of_nonneg_left h1 htw.le
        _ = 4096 := mul_div_cancel₀ 4096 htw.ne'
    · have h1 : min (4096 / (stageWidth * exportPixelRatio))
          (4096 / (stageHeight * exportPixelRatio)) ≤
            4096 / (stageHeight * exportPixelRatio) := min_le_right _ _
      calc stageHeight * exportPixelRatio *
            min (4096 / (stageWidth * exportPixelRatio))
              (4096 / (stageHeight * exportPixelRatio)) ≤
          stageHeight * exportPixelRatio * (4096 / (stageHeight * exportPixelRatio)) :=
            mul_le_mul_of_nonneg_left h1 hth.le
        _ = 4096 := mul_div_cancel₀ 4096 hth.ne'
    · rw [mul_div_mul_right _ _ hs.ne']
      rw [mul_div_mul_right _ _ hp.ne']
  · push_neg at hbig
    have hred : offscreenDims stageWidth stageHeight exportPixelRatio =
        ⟨stageWidth * exportPixelRatio, stageHeight * exportPixelRatio,
          stageWidth * exportPixelRatio, stageHeight * exportPixelRatio⟩ := by
      unfold offscreenDims
      rw [if_neg (by push_neg; exact hbig)]
    rw [hred]
    refine ⟨rfl, rfl, fun h => absurd h (by push_neg; exact hbig), hbig.1, hbig.2, ?_⟩
    rw [mul_div_mul_right _ _ hp.ne']

/-- Witness for `offscreenDims_spec`: an 800 × 600 stage at pixel ratio 8
(target 6400 × 4800, above the ceiling). -/
theorem offscreenDims_spec_witness :
    (offscreenDims 800 600 8).finalWidth ≤ 4096 ∧
      (offscreenDims 800 600 8).finalWidth / (offscreenDims 800 600 8).finalHeight =
        800 / 600 := by
  have h := offscreenDims_spec 800 600 8 (by norm_num) (by norm_num) (by norm_num)
  exact ⟨h.2.2.2.1, h.2.2.2.2.2⟩

/-! Section: Export compositor: capture strategy chain
(PhotoEditor.tsx, `captureCanvas` inside `getCleanRender`, lines 224–387) -/

/-- Embedding of `captureCanvas` as a function of its branch outcomes:
* `directCapture` — the result of the direct `stage.toDataURL` (approach 1),
  or the thrown error;
* on a non-mobile platform the direct result is returned unconditionally;
* on mobile the direct result is kept as `fallbackDataUrl`; a missing 2d
  context or display image, or a throwing manual draw, each fall back to it;
* `manualComposite` — the manual off-screen composite's data URL (approach
  2/3) or its draw error; an output shorter than 10000 characters is treated
  as a failed render and replaced by the fallback;
* when the direct capture itself throws, a reduced-pixel-ratio retry
  (`reducedRetry`) is attempted; if that throws too, the export fails. -/
def captureCanvas (isMobileLike : Bool) (directCapture : Except String String)
    (ctxOk : Bool) (displayImageOk : Bool) (manualComposite : Except String String)
    (reducedRetry : Except String String) : Except String String :=
  match directCapture with
  | Except.error _ =>
      (match reducedRetry with
       | Except.ok simpleDataUrl => Except.ok simpleDataUrl
       | Except.error _ => Except.error "Failed to export image")
  | Except.ok dataUrl =>
      if isMobileLike = false then Except.ok dataUrl
      else if ctxOk = false then Except.ok dataUrl
      else if displayImageOk = false then Except.ok dataUrl
      else
        match manualComposite with
        | Except.error _ => Except.ok dataUrl
        | Except.ok highQualityDataUrl =>
            if highQualityDataUrl.length < 10000 then Except.ok dataUrl
            else Except.ok highQualityDataUrl

/-- Claim C7: Whenever the manual off-screen composite produces an encoded
output below the 10000-character floor, the export resolves successfully with
the direct-capture result from step 1 instead of the manual composite, and no
error is surfaced to the caller. -/
theorem captureCanvas_small_composite_fallback
    (directUrl manualUrl : String) (reducedRetry : Except String String)
    (isMobileLike : Bool) (hMobile : isMobileLike = true)
    (hSmall : manualUrl.length < 10000) :
    captureCanvas isMobileLike (Except.ok directUrl) true true
      (Except.ok manualUrl) reducedRetry = Except.ok directUrl := by
  subst hMobile
  unfold captureCanvas
  simp [hSmall]

/-- Witness for `captureCanvas_small_composite_fallback`. -/
theorem captureCanvas_small_composite_fallback_witness :
    captureCanvas true (Except.ok "direct-capture-data") true true
      (Except.ok "tiny") (Except.error "unused") = Except.ok "direct-capture-data" :=
  captureCanvas_small_composite_fallback "direct-capture-data" "tiny"
    (Except.error "unused") true rfl (by decide)

/-! Section: Export compositor: selection save/restore
(PhotoEditor.tsx, `getCleanRender`, lines 182–414)

`getCleanRender` records `wasSelected = isSelected`, deselects when needed,
waits `setTimeout(…, 300)` so the UI commits before capturing, and restores
the selection on the resolve path, the reject path, and the synchronous
error path.  The run is modelled as the list of selection/wait/capture
events the handler performs, plus the settled promise outcome. -/

/-- An observable step of a `getCleanRender` run. -/
inductive ExportEvent where
  | setSelected (selected : Bool)
  | uiSettleWait
  | capture
deriving DecidableEq

/-- An entire `getCleanRender` run: its event trace and settled outcome. -/
structure ExportRun where
  events : List ExportEvent
  outcome : Except String String

/-- Embedding of `getCleanRender`'s control flow.  `stageOk` is whether
`stageRef.current` is non-null; `wasSelected` the selection state on entry;
`captureResult` the settled outcome of `captureCanvas`. -/
def getCleanRender (stageOk : Bool) (wasSelected : Bool)
    (captureResult : Except String String) : ExportRun :=
  if stageOk = false then
    { events := [], outcome := Except.error "Stage reference is null" }
  else
    { events :=
        (if wasSelected then [ExportEvent.setSelected false] else []) ++
          [ExportEvent.uiSettleWait, ExportEvent.capture] ++
          (if wasSelected then [ExportEvent.setSelected true] else []),
      outcome := captureResult }

/-- The selection state after replaying a trace from an initial state. -/
def selectionAfter (init : Bool) : List ExportEvent → Bool
  | [] => init
  | ExportEvent.setSelected b :: rest => selectionAfter b rest
  | ExportEvent.uiSettleWait :: rest => selectionAfter init rest
  | ExportEvent.capture :: rest => selectionAfter init rest

/-- Claim C6: For every initial selection state, `getCleanRender` forces the
Deselected state and waits one UI-update cycle before any capture (the trace
splits as `pre ++ [uiSettleWait, capture] ++ post` with the selection false
and no capture throughout `pre`), and on every terminating path — resolve or
reject, with or without a stage — the selection state after the run equals
the selection state before it. -/
theorem getCleanRender_selection_spec (stageOk wasSelected : Bool)
    (captureResult : Except String String) :
    selectionAfter wasSelected
        (getCleanRender stageOk wasSelected captureResult).events = wasSelected ∧
      (stageOk = true →
        (getCleanRender stageOk wasSelected captureResult).outcome = captureResult ∧
          ∃ pre post,
            (getCleanRender stageOk wasSelected captureResult).events =
                pre ++ ExportEvent.uiSettleWait :: ExportEvent.capture :: post ∧
              selectionAfter wasSelected pre = false ∧
              ExportEvent.capture ∉ pre) ∧
      (stageOk = false →
        ExportEvent.capture ∉ (getCleanRender stageOk wasSelected captureResult).events ∧
          (getCleanRender stageOk wasSelected captureResult).outcome =
            Except.error "Stage reference is null") := by
  cases stageOk with
  | false =>
      refine ⟨rfl, fun h => absurd h (by decide), fun _ => ⟨List.not_mem_nil _, rfl⟩⟩
  | true =>
      cases wasSelected with
      | false =>
          refine ⟨rfl, fun _ => ⟨rfl, ⟨[], [], rfl, rfl, by decide⟩⟩,
            fun h => absurd h (by decide)⟩
      | true =>
          refine ⟨rfl, fun _ => ⟨rfl,
            ⟨[ExportEvent.setSelected false], [ExportEvent.setSelected true],
              rfl, rfl, by decide⟩⟩,
            fun h => absurd h (by decide)⟩

/-- Witness for `getCleanRender_selection_spec`: an initially selected
overlay and a resolving capture. -/
theorem getCleanRender_selection_spec_witness :
    selectionAfter true (getCleanRender true true (Except.ok "data")).events = true ∧
      (getCleanRender true true (Except.ok "data")).outcome = Except.ok "data" :=
  ⟨(getCleanRender_selection_spec true true (Except.ok "data")).1,
    ((getCleanRender_selection_spec true true (Except.ok "data")).2.1 rfl).1⟩

/-! Section: Filter pipeline (PhotoEditor.tsx, `PHOTO_FILTERS`, the filter-baking
effect at lines 490–596, `displayImage` at line 599, and the export-time
`ctx.filter` application at lines 310–315) -/

/-- One entry of the `PHOTO_FILTERS` catalog; `styleFilter` is the entry's
`style.filter` CSS string (absent for the identity entry). -/
structure PhotoFilter where
  name : String
  value : String
  styleFilter : Option String

/-- The `PHOTO_FILTERS` catalog. -/
def PHOTO_FILTERS : List PhotoFilter :=
  [ { name := "None", value := "none", styleFilter := none },
    { name := "Clarendon", value := "clarendon",
      styleFilter := some "contrast(1.2) saturate(1.35) brightness(1.1)" },
    { name := "Gingham", value := "gingham",
      styleFilter := some "brightness(1.05) hue-rotate(-10deg) sepia(0.2)" },
    { name := "Juno", value := "juno",
      styleFilter := some "sepia(0.35) contrast(1.15) brightness(1.15) saturate(1.8)" } ]

/-- Embedding of the filter-baking effect: with no photo the previous state
is kept; an unknown or `"none"` selection, an iOS device, or a missing
`style.filter` yield `null`; otherwise the platform's raster baking runs
(`bake`, returning `null` on any failure). -/
def computeFilteredImage (userImage : Option String) (selectedFilter : String)
    (isIOSDevice : Bool) (bake : String → String → Option String)
    (prevFilteredImage : Option String) : Option String :=
  match userImage with
  | none => prevFilteredImage
  | some img =>
      match PHOTO_FILTERS.find? (fun f => f.value == selectedFilter) with
      | none => none
      | some filter =>
          if selectedFilter == "none" then none
          else if isIOSDevice then none
          else
            match filter.styleFilter with
            | none => none
            | some style => bake img style

/-- `const [displayImage] = useImage(filteredImage || userImage)` (line 599). -/
def displayImageSource (filteredImage : Option String) (userImage : String) : String :=
  filteredImage.getD userImage

/-- The export composite's `ctx.filter` assignment (lines 310–315): applied
only when `selectedFilter !== 'none'` and the catalog entry has a style. -/
def exportContextFilter (selectedFilter : String) : Option String :=
  if selectedFilter != "none" then
    (PHOTO_FILTERS.find? (fun f => f.value == selectedFilter)).bind
      (fun f => f.styleFilter)
  else none

/-- The paint-time filter props spread onto the photo node (lines 756–759):
active on iOS, or as a live fallback when no baked raster exists for a
non-none selection. -/
def paintTimeFilter (selectedFilter : String) (isIOSDevice : Bool)
    (filteredImage : Option String) : Option String :=
  if isIOSDevice || (filteredImage == none && selectedFilter != "none") then
    (PHOTO_FILTERS.find? (fun f => f.value == selectedFilter)).bind
      (fun f => f.styleFilter)
  else none

/-- Claim C8: Selecting the filter `"None"` makes the filter engine yield
`null` (no derived raster) on every platform, the displayed photo source is
the unmodified user image, no paint-time filter style is applied to the
photo node, and the export composite applies no `ctx.filter` — so displayed
and exported photo pixels are the unmodified source. -/
theorem none_filter_identity (img : String) (prev : Option String)
    (isIOSDevice : Bool) (bake : String → String → Option String) :
    computeFilteredImage (some img) "none" isIOSDevice bake prev = none ∧
      displayImageSource
        (computeFilteredImage (some img) "none" isIOSDevice bake prev) img = img ∧
      paintTimeFilter "none" isIOSDevice
        (computeFilteredImage (some img) "none" isIOSDevice bake prev) = none ∧
      exportContextFilter "none" = none := by
  refine ⟨rfl, rfl, ?_, rfl⟩
  cases isIOSDevice <;> rfl

end PhotoCalendar
